/-
Verification of the IMDB crawler's crawl-and-ingest pipeline.

Shallow embedding of the Python sources in src/service/: the JSON value
model and the recursive response-search helpers of pipeline.py, the
adaptive-backoff client of graphql_client.py, the classifier of
error_handler.py, the checkpoint store of progress_manager.py, the
streaming sink of streaming_output.py, and the orchestration loop of
run_crawl_pipeline, modelled as a deterministic interpreter over a script
of fetch outcomes.
-/
import Mathlib

set_option maxHeartbeats 1000000

/-- JSON-like values as produced by `resp.json()`.  Objects keep insertion
order, matching Python dicts. -/
inductive JValue where
  | null : JValue
  | bool (b : Bool) : JValue
  | num (n : Int) : JValue
  | str (s : String) : JValue
  | arr (xs : List JValue) : JValue
  | obj (kvs : List (String × JValue)) : JValue
deriving Repr

/-- Errors Python raises while walking loosely-typed response trees. -/
inductive PyErr where
  | attributeError : PyErr
  | typeError : PyErr
deriving Repr, DecidableEq

/-- Python truthiness for JSON values: None, False, 0, "", [] and \x7b\x7d
are falsy, everything else truthy. -/
def truthy : JValue → Bool
  | .null => false
  | .bool b => b
  | .num n => n != 0
  | .str s => !s.isEmpty
  | .arr xs => !xs.isEmpty
  | .obj kvs => !kvs.isEmpty

/-- Python `dict.get(key)`: first binding of the key, if any. -/
def lookup_key (kvs : List (String × JValue)) (key : String) : Option JValue :=
  match kvs.find? (fun p => p.1 == key) with
  | some p => some p.2
  | none => none

/-- Leading-match test used by the substring check below. -/
def chars_lead : List Char → List Char → Bool
  | [], _ => true
  | _ :: _, [] => false
  | a :: as, b :: bs => a == b && chars_lead as bs

/-- Substring test on character lists (Python `needle in haystack`). -/
def chars_within (needle : List Char) : List Char → Bool
  | [] => needle.isEmpty
  | b :: bs => chars_lead needle (b :: bs) || chars_within needle bs

/-- Python `key in value` for the containers that support it:
dict membership, list membership, substring test.  Raises TypeError on
scalars, as Python does. -/
def py_in (key : String) : JValue → Except PyErr Bool
  | .obj kvs => .ok (kvs.any (fun p => p.1 == key))
  | .arr xs => .ok (xs.any (fun v => match v with | .str t => t == key | _ => false))
  | .str t => .ok (chars_within key.toList t.toList)
  | _ => .error .typeError

/-- Python iteration `for x in v`: list elements, dict keys, string
characters; TypeError otherwise. -/
def py_iter : JValue → Except PyErr (List JValue)
  | .arr xs => .ok xs
  | .obj kvs => .ok (kvs.map (fun p => JValue.str p.1))
  | .str t => .ok (t.toList.map (fun c => JValue.str (String.mk [c])))
  | _ => .error .typeError

mutual
/-- pipeline.find_title_list: returns `data.data.advancedTitleSearch.edges`
when that path exists (the `advanced_search and "edges" in advanced_search`
check), else recursively searches values, skipping falsy results
(`if result: return result`).  `JValue.null` models the Python `None`
return.  `.get` on a non-dict raises AttributeError; indexing a non-dict
with a string raises TypeError. -/
def find_title_list : JValue → Except PyErr JValue
  | .obj kvs =>
    match lookup_key kvs "data" with
    | some dv =>
      match dv with
      | .obj inner =>
        let adv := (lookup_key inner "advancedTitleSearch").getD JValue.null
        if truthy adv then
          match py_in "edges" adv with
          | .error e => .error e
          | .ok true =>
            match adv with
            | .obj akvs => .ok ((lookup_key akvs "edges").getD JValue.null)
            | _ => .error .typeError
          | .ok false => ftl_fields kvs
        else ftl_fields kvs
      | _ => .error .attributeError
    | none =>
      -- data.get("data", \x7b\x7d) defaults to an empty dict, whose .get is None
      ftl_fields kvs
  | .arr xs => ftl_elems xs
  | _ => .ok .null

/-- Search the values of a dict, in insertion order, skipping falsy hits. -/
def ftl_fields : List (String × JValue) → Except PyErr JValue
  | [] => .ok .null
  | (_, v) :: rest =>
    match find_title_list v with
    | .error e => .error e
    | .ok r => if truthy r then .ok r else ftl_fields rest

/-- Search the elements of a list, in order, skipping falsy hits. -/
def ftl_elems : List JValue → Except PyErr JValue
  | [] => .ok .null
  | v :: rest =>
    match find_title_list v with
    | .error e => .error e
    | .ok r => if truthy r then .ok r else ftl_elems rest
end

mutual
/-- pipeline.find_page_info: the first dict found under a "pageInfo" key,
searching recursively and skipping falsy (empty-dict) recursive results. -/
def find_page_info : JValue → Option (List (String × JValue))
  | .obj kvs =>
    match lookup_key kvs "pageInfo" with
    | some (.obj pi) => some pi
    | _ => fpi_fields kvs
  | .arr xs => fpi_elems xs
  | _ => none

/-- Search dict values for a pageInfo block, skipping empty-dict hits. -/
def fpi_fields : List (String × JValue) → Option (List (String × JValue))
  | [] => none
  | (_, v) :: rest =>
    match find_page_info v with
    | some pi => if pi.isEmpty then fpi_fields rest else some pi
    | none => fpi_fields rest

/-- Search list elements for a pageInfo block, skipping empty-dict hits. -/
def fpi_elems : List JValue → Option (List (String × JValue))
  | [] => none
  | v :: rest =>
    match find_page_info v with
    | some pi => if pi.isEmpty then fpi_elems rest else some pi
    | none => fpi_elems rest
end

mutual
/-- pipeline.find_cursor: if the node has a truthy "pageInfo" containing an
"endCursor" key, return that value (possibly null); otherwise search
recursively, skipping falsy results.  `JValue.null` models Python None. -/
def find_cursor : JValue → Except PyErr JValue
  | .obj kvs =>
    let pi := (lookup_key kvs "pageInfo").getD JValue.null
    if truthy pi then
      match py_in "endCursor" pi with
      | .error e => .error e
      | .ok true =>
        match pi with
        | .obj pkvs => .ok ((lookup_key pkvs "endCursor").getD JValue.null)
        | _ => .error .typeError
      | .ok false => fc_fields kvs
    else fc_fields kvs
  | .arr xs => fc_elems xs
  | _ => .ok .null

/-- Search dict values for a cursor, skipping falsy results. -/
def fc_fields : List (String × JValue) → Except PyErr JValue
  | [] => .ok .null
  | (_, v) :: rest =>
    match find_cursor v with
    | .error e => .error e
    | .ok c => if truthy c then .ok c else fc_fields rest

/-- Search list elements for a cursor, skipping falsy results. -/
def fc_elems : List JValue → Except PyErr JValue
  | [] => .ok .null
  | v :: rest =>
    match find_cursor v with
    | .error e => .error e
    | .ok c => if truthy c then .ok c else fc_elems rest
end

/-- error_handler.validate_graphql_response: must be a dict, must not carry
a truthy "errors" entry, and must have a "data" key. -/
def validate_graphql_response : JValue → Bool
  | .obj kvs =>
    (match lookup_key kvs "errors" with
     | some v => !truthy v
     | none => true)
    && (lookup_key kvs "data").isSome
  | _ => false

/-- pipeline line 198: `item.get("node", item)`; `.get` on a non-dict
raises AttributeError. -/
def node_of (item : JValue) : Except PyErr JValue :=
  match item with
  | .obj kvs => .ok ((lookup_key kvs "node").getD item)
  | _ => .error .attributeError

/-- Sequential fail-fast map, as a Python list comprehension or
`asyncio.gather(..., return_exceptions=False)` behaves. -/
def mapE (f : α → Except PyErr β) : List α → Except PyErr (List β)
  | [] => .ok []
  | x :: rest =>
    match f x with
    | .error e => .error e
    | .ok y =>
      match mapE f rest with
      | .error e => .error e
      | .ok ys => .ok (y :: ys)

/-- The backoff-relevant part of config.Config (ms values, floats in the
source, modelled as rationals). -/
structure CrawlerConfig where
  page_delay_ms : ℚ
  backoff_threshold_ms : ℚ
  backoff_step_ms : ℚ
  backoff_max_ms : ℚ

/-- Default environment values from config.py. -/
def defaultConfig : CrawlerConfig :=
  { page_delay_ms := 150, backoff_threshold_ms := 2000,
    backoff_step_ms := 200, backoff_max_ms := 1200 }

/-- The backoff state of graphql_client.GraphQLClient. -/
structure GraphQLClient where
  base_delay_sec : ℚ
  current_delay_sec : ℚ
  backoff_threshold_ms : ℚ
  backoff_step_sec : ℚ
  backoff_max_sec : ℚ

/-- GraphQLClient.__init__: seconds derived from ms with a max(0, _) clamp,
current delay starting at the base delay. -/
def mkGraphQLClient (cfg : CrawlerConfig) : GraphQLClient :=
  { base_delay_sec := max 0 (cfg.page_delay_ms / 1000),
    current_delay_sec := max 0 (cfg.page_delay_ms / 1000),
    backoff_threshold_ms := cfg.backoff_threshold_ms,
    backoff_step_sec := max 0 (cfg.backoff_step_ms / 1000),
    backoff_max_sec := max 0 (cfg.backoff_max_ms / 1000) }

/-- GraphQLClient.update_backoff: additive increase above the latency
threshold (capped), additive decrease below half the threshold while above
base (floored), guarded by a positive threshold. -/
def update_backoff (c : GraphQLClient) (t_request_ms : ℚ) : GraphQLClient :=
  if 0 < c.backoff_threshold_ms then
    if c.backoff_threshold_ms < t_request_ms then
      { c with current_delay_sec := min c.backoff_max_sec (c.current_delay_sec + c.backoff_step_sec) }
    else if c.base_delay_sec < c.current_delay_sec
        ∧ t_request_ms < (1 / 2) * c.backoff_threshold_ms then
      { c with current_delay_sec := max c.base_delay_sec (c.current_delay_sec - c.backoff_step_sec / 2) }
    else c
  else c

/-- GraphQLClient.should_pipeline: pipeline the next request iff the last
latency did not exceed the threshold. -/
def should_pipeline (c : GraphQLClient) (t_request_ms : ℚ) : Bool :=
  t_request_ms ≤ c.backoff_threshold_ms

/-- Feed a whole sequence of observed latencies to update_backoff. -/
def run_backoff (c : GraphQLClient) (latencies : List ℚ) : GraphQLClient :=
  latencies.foldl update_backoff c

/-- ErrorHandler.is_rate_limited: throttling status codes 429/503/502, or a
truthy (non-empty) Retry-After header. -/
def is_rate_limited (status_code : Nat) (retry_after : Option String) : Bool :=
  (status_code == 429 || status_code == 503 || status_code == 502)
  || !(retry_after.getD "").isEmpty

/-- httpx `Response.is_success`, the gate of `raise_for_status`. -/
def is_success_status (status_code : Nat) : Bool :=
  200 ≤ status_code && status_code < 300

/-- The single JSON state record written by ProgressManager.save:
records_count is the length of the records argument and sample_record its
last element (None when empty). -/
structure CkptRecord where
  cursor : JValue
  page_no : Nat
  records_count : Nat
  sample_record : Option JValue
deriving Repr

/-- Build the checkpoint record exactly as ProgressManager.save does. -/
def mkCkptRecord (cursor : JValue) (page_no : Nat) (records : List JValue) :
    CkptRecord :=
  { cursor := cursor, page_no := page_no,
    records_count := records.length, sample_record := records.getLast? }

/-- File-level operations performed by ProgressManager.save on the state
file: `open(self.state_file, "w")` truncates, then `json.dump` writes the
serialized state. -/
inductive FileOp where
  | truncate : FileOp
  | writeAll (content : String) : FileOp
deriving Repr, DecidableEq

/-- The operation sequence of one ProgressManager.save call: an in-place
truncate followed by the write.  There is no temp-file-and-rename step. -/
def save_file_ops (serialized : String) : List FileOp :=
  [.truncate, .writeAll serialized]

/-- Effect of one file operation on the state file's content. -/
def apply_file_op (disk : String) : FileOp → String
  | .truncate => ""
  | .writeAll content => disk ++ content

/-- Content of the state file if the process crashes after the first k
operations of a save. -/
def disk_after_crash (old : String) (ops : List FileOp) (k : Nat) : String :=
  (ops.take k).foldl apply_file_op old

/-- Outcome of a ProgressManager.save call: the body runs under
`try/except Exception`, so a persistence failure is logged as a warning and
never re-raised. -/
inductive SaveEffect where
  | wrote (r : CkptRecord) : SaveEffect
  | warnedFailure : SaveEffect
deriving Repr

/-- The uncaught body of ProgressManager.save: builds the state record and
persists it, failing when the underlying write fails. -/
def save_body (persist_ok : Bool) (cursor : JValue) (page_no : Nat)
    (records : List JValue) : Except String CkptRecord :=
  if persist_ok then .ok (mkCkptRecord cursor page_no records)
  else .error "Failed to save progress"

/-- ProgressManager.save with its try/except: a failed persist becomes a
logged warning, never an exception to the caller. -/
def progress_save (persist_ok : Bool) (cursor : JValue) (page_no : Nat)
    (records : List JValue) : SaveEffect :=
  match save_body persist_ok cursor page_no records with
  | .ok r => .wrote r
  | .error _ => .warnedFailure

/-- State of streaming_output.StreamingOutputHandler: the in-memory buffer
of uuid-tagged records, the lines already handed to the gzip handle
(`written`), and how many of those are known durable after the last
fsync (`synced_len`).  UUIDs are modelled by a per-handler counter, which
preserves their per-instance uniqueness. -/
structure SinkState where
  buffer_size : Nat
  buffer : List (Nat × JValue)
  record_count : Nat
  written : List (Nat × JValue)
  synced_len : Nat
  file_open : Bool
  next_uuid : Nat

/-- A freshly constructed handler: empty buffer, no file handle yet. -/
def mkSink (buffer_size : Nat) : SinkState :=
  { buffer_size := buffer_size, buffer := [], record_count := 0,
    written := [], synced_len := 0, file_open := false, next_uuid := 0 }

/-- Result of a sink operation: the updated state, or the state left
behind when the flush body raised (`except ... raise`). -/
inductive SinkRes where
  | ok (s : SinkState) : SinkRes
  | err (s : SinkState) : SinkRes

/-- StreamingOutputHandler.flush.  `fail_at = none` is the success run:
every buffered record is written, the handle flushed, fsync forces
durability, and only then is the buffer cleared.  `fail_at = some k`
models an exception after k of the writes: the buffer is left untouched,
nothing new is known durable, and the error is re-raised. -/
def sink_flush (fail_at : Option Nat) (s : SinkState) : SinkRes :=
  if s.buffer.isEmpty || !s.file_open then .ok s
  else
    match fail_at with
    | none =>
      .ok { s with written := s.written ++ s.buffer,
                   synced_len := s.written.length + s.buffer.length,
                   buffer := [] }
    | some k => .err { s with written := s.written ++ s.buffer.take k }

/-- StreamingOutputHandler.add_record: open the file if needed, tag the
record with a fresh uuid, append it to the buffer, and flush once the
buffer has reached buffer_size. -/
def add_record (fail_at : Option Nat) (s : SinkState) (record : JValue) :
    SinkRes :=
  let s := if s.file_open then s else { s with file_open := true }
  let s := { s with buffer := s.buffer ++ [(s.next_uuid, record)],
                    next_uuid := s.next_uuid + 1,
                    record_count := s.record_count + 1 }
  if s.buffer_size ≤ s.buffer.length then sink_flush fail_at s else .ok s

/-- Add a list of records with every flush succeeding. -/
def add_all (s : SinkState) (records : List JValue) : SinkState :=
  records.foldl
    (fun st r => match add_record none st r with | .ok s' => s' | .err s' => s') s

/-- pipeline lines 193-204: the bounded-parallel transform attempt.  All
items are mapped with the same transform the serial path uses; `pool_ok`
models pool-level failures (the gather raising for reasons other than a
deterministic per-item error). -/
def transform_batch_parallel (pool_ok : Bool)
    (transform : JValue → Except PyErr JValue) (nodes : List JValue) :
    Except PyErr (List JValue) :=
  if pool_ok then mapE transform nodes else .error .typeError

/-- pipeline lines 203-207: try the parallel map; on any exception fall
back to re-mapping the whole page sequentially. -/
def transform_page (pool_ok : Bool)
    (transform : JValue → Except PyErr JValue) (nodes : List JValue) :
    Except PyErr (List JValue) :=
  match transform_batch_parallel pool_ok transform nodes with
  | .ok records => .ok records
  | .error _ => mapE transform nodes

/-- What one awaited fetch yields in run_crawl_pipeline's loop: a completed
HTTP response (status, Retry-After header, measured latency, parsed JSON
body or a json() failure), one of the httpx network faults re-raised as
NetworkError, a KeyboardInterrupt delivered at the await, or any other
exception (caught by the generic `except Exception` clause). -/
inductive Outcome where
  | resp (status_code : Nat) (retry_after : Option String) (t_req_ms : ℚ)
      (body : Option JValue) : Outcome
  | netErr : Outcome
  | interrupt : Outcome
  | unexpected : Outcome
deriving Repr

/-- Observable actions of one pipeline run, in program order. -/
inductive Event where
  | fetch (cursor : JValue) (prefetched : Bool) : Event
  | rateLimitSleep (secs : ℚ) : Event
  | backoffSleep (secs : ℚ) : Event
  | savePeriodic (ck : CkptRecord) : Event
  | saveFinal (ck : CkptRecord) : Event
  | processed (pages_done : Nat) (item_count : Nat) : Event
deriving Repr

/-- Why the run ended. -/
inductive StopReason where
  | scriptEnd : StopReason
  | interrupted : StopReason
  | fatalError : StopReason
  | unexpectedErr : StopReason
  | tooManyErrors : StopReason
  | noItems : StopReason
  | noCursor : StopReason
  | hasNextFalse : StopReason
  | maxPagesReached : StopReason
deriving Repr, DecidableEq

/-- The loop state of run_crawl_pipeline: the remaining scripted world
(`script`), the prefetched request's outcome if a task exists (`pending` -
awaiting a completed task again yields the same outcome), the cursor
`after`, `page_no`, the consecutive-error counter, the collected records,
the streaming handler's running record count, and the backoff client. -/
structure PipeState where
  script : List Outcome
  pending : Option Outcome
  after : JValue
  page_no : Nat
  consecutive_errors : Nat
  collected : List JValue
  stream_count : Nat
  client : GraphQLClient

/-- A finished run: its event trace, its return value (`collected if not
streaming else []`), the reason it stopped, and the loop state at exit. -/
structure RunResult where
  trace : List Event
  collected : List JValue
  reason : StopReason
  final : PipeState

/-- The hard rate-limit pause: `await asyncio.sleep(60)`. -/
def rate_limit_cooldown_sec : ℚ := 60

/-- pipeline lines 259-262 / 266-274: every exit path (loop break,
KeyboardInterrupt handler, fatal-exception handler) saves progress only
when not streaming and something was collected. -/
def final_save_events (streaming : Bool) (s : PipeState) : List Event :=
  if !streaming && !s.collected.isEmpty then
    [.saveFinal (mkCkptRecord s.after s.page_no s.collected)]
  else []

/-- Assemble the run's ending: final best-effort save and return value. -/
def finish (streaming : Bool) (s : PipeState) (r : StopReason) : RunResult :=
  { trace := final_save_events streaming s,
    collected := if streaming then [] else s.collected,
    reason := r, final := s }

/-- Result of one loop iteration: halt with a stop reason, or continue. -/
inductive StepRes where
  | halt (evs : List Event) (reason : StopReason) (s : PipeState) : StepRes
  | step (evs : List Event) (s : PipeState) : StepRes

/-- pipeline lines 181-250: the body run after a response validates.
Locate the edge list (break when falsy), the pageInfo block and the next
cursor; transform every item's node; buffer records (streaming handler or
the collected list); save progress every 10th page (with an empty records
list when streaming); stop on a falsy cursor, an explicit
`hasNextPage is False`, or the page limit; otherwise update the backoff,
sleep the current delay, optionally start the prefetch task for the next
page, and advance page_no. -/
def handle_validated (streaming has_handler : Bool) (max_pages : Option Nat)
    (transform : JValue → Nat → JValue) (data : JValue) (t_req_ms : ℚ)
    (s : PipeState) : StepRes :=
  match find_title_list data with
  | .error _ => .halt [] .fatalError s
  | .ok itemsV =>
    if !truthy itemsV then .halt [] .noItems s
    else
      let page_info := (find_page_info data).getD []
      let has_next := lookup_key page_info "hasNextPage"
      match find_cursor data with
      | .error _ => .halt [] .fatalError s
      | .ok after1 =>
        let pages_done := s.page_no + 1
        match py_iter itemsV with
        | .error _ => .halt [] .fatalError s
        | .ok items =>
          match mapE node_of items with
          | .error _ => .halt [] .fatalError s
          | .ok nodes =>
            let records := nodes.map (fun n => transform n s.page_no)
            let s1 : PipeState := { s with
              after := after1,
              collected := if streaming && has_handler then s.collected else s.collected ++ records,
              stream_count := if streaming && has_handler then s.stream_count + records.length else s.stream_count }
            let save_evs : List Event :=
              if pages_done % 10 == 0 then
                if streaming then [.savePeriodic (mkCkptRecord s1.after pages_done [])]
                else [.savePeriodic (mkCkptRecord s1.after pages_done s1.collected)]
              else []
            let evs := save_evs ++ [.processed pages_done items.length]
            if !truthy s1.after then .halt evs .noCursor s1
            else
              match has_next with
              | some (.bool false) => .halt evs .hasNextFalse s1
              | _ =>
                if (match max_pages with | some m => decide (m ≤ pages_done) | none => false) then
                  .halt evs .maxPagesReached s1
                else
                  let cl := update_backoff s.client t_req_ms
                  let sleep_evs := if 0 < cl.current_delay_sec then [Event.backoffSleep cl.current_delay_sec] else []
                  if should_pipeline cl t_req_ms then
                    match s1.script with
                    | [] => .step (evs ++ sleep_evs) { s1 with client := cl, pending := none, page_no := pages_done }
                    | o :: rest => .step (evs ++ sleep_evs ++ [.fetch s1.after true]) { s1 with client := cl, pending := some o, script := rest, page_no := pages_done }
                  else .step (evs ++ sleep_evs) { s1 with client := cl, pending := none, page_no := pages_done }

/-- pipeline lines 147-179: classify one awaited outcome.  Rate-limited
responses sleep the fixed cooldown and count one consecutive error, then
retry (the pending task, if any, is left in place and will be re-awaited);
non-success statuses and network faults are re-raised as typed exceptions
that escape to the outer fatal handler; an unparsable body or any other
exception breaks the loop; a response failing validation counts one
consecutive error; a validated response resets the counter to zero. -/
def handle_outcome (streaming has_handler : Bool) (max_pages : Option Nat)
    (transform : JValue → Nat → JValue) (o : Outcome) (s : PipeState) : StepRes :=
  match o with
  | .interrupt => .halt [] .interrupted s
  | .netErr => .halt [] .fatalError s
  | .unexpected => .halt [] .unexpectedErr s
  | .resp status_code retry_after t_req_ms body =>
    if is_rate_limited status_code retry_after then
      if 5 ≤ s.consecutive_errors + 1 then
        .halt [.rateLimitSleep rate_limit_cooldown_sec] .tooManyErrors { s with consecutive_errors := s.consecutive_errors + 1 }
      else
        .step [.rateLimitSleep rate_limit_cooldown_sec] { s with consecutive_errors := s.consecutive_errors + 1 }
    else if !is_success_status status_code then .halt [] .fatalError s
    else
      match body with
      | none => .halt [] .unexpectedErr s
      | some data =>
        if !validate_graphql_response data then
          if 5 ≤ s.consecutive_errors + 1 then
            .halt [] .tooManyErrors { s with consecutive_errors := s.consecutive_errors + 1 }
          else
            .step [] { s with consecutive_errors := s.consecutive_errors + 1 }
        else
          handle_validated streaming has_handler max_pages transform data t_req_ms
            { s with consecutive_errors := 0, pending := none }

/-- Record an event in front of a step result's events. -/
def prepend_step (e : Event) : StepRes → StepRes
  | .halt evs r s => .halt (e :: evs) r s
  | .step evs s => .step (e :: evs) s

/-- One iteration of the while loop: await the pending prefetched task if
one exists (no new request is issued - a completed task replays its
outcome), otherwise issue a fresh fetch with the current cursor, consuming
the next scripted outcome. -/
def pipe_step (streaming has_handler : Bool) (max_pages : Option Nat)
    (transform : JValue → Nat → JValue) (s : PipeState) : StepRes :=
  match s.pending with
  | some o => handle_outcome streaming has_handler max_pages transform o s
  | none =>
    match s.script with
    | [] => .halt [] .scriptEnd s
    | o :: rest =>
      prepend_step (.fetch s.after false)
        (handle_outcome streaming has_handler max_pages transform o { s with script := rest })

/-- Termination measure for the loop: every continuing iteration consumes
a scripted outcome, clears the pending slot, or raises the bounded
consecutive-error counter. -/
def pipe_measure (s : PipeState) : Nat :=
  7 * s.script.length + (if s.pending.isSome then 6 else 0) + (5 - s.consecutive_errors)

theorem handle_validated_step (streaming has_handler : Bool)
    (max_pages : Option Nat) (transform : JValue → Nat → JValue)
    (data : JValue) (t_req_ms : ℚ) (s s' : PipeState) (evs : List Event)
    (h : handle_validated streaming has_handler max_pages transform data t_req_ms s = .step evs s') :
    s'.consecutive_errors = s.consecutive_errors ∧
      ((s'.pending = none ∧ s'.script = s.script) ∨
       s'.script.length + 1 = s.script.length) := by
  unfold handle_validated at h
  dsimp only at h
  repeat' split at h
  all_goals (try simp_all)
  all_goals (obtain ⟨h1, h2⟩ := h; subst h2; simp_all)

theorem handle_outcome_step (streaming has_handler : Bool)
    (max_pages : Option Nat) (transform : JValue → Nat → JValue)
    (o : Outcome) (s s' : PipeState) (evs : List Event)
    (h : handle_outcome streaming has_handler max_pages transform o s = .step evs s') :
    (s'.script = s.script ∧ s'.pending = s.pending ∧
      s'.consecutive_errors = s.consecutive_errors + 1 ∧ s.consecutive_errors + 1 < 5)
    ∨ (s'.pending = none ∧ s'.script = s.script)
    ∨ s'.script.length + 1 = s.script.length := by
  unfold handle_outcome at h
  repeat' split at h
  all_goals (try simp_all)
  all_goals (try (obtain ⟨h1, h2⟩ := h; subst h2; simp_all; omega))
  · rcases handle_validated_step _ _ _ _ _ _ _ _ _ h with ⟨hce, hrest⟩
    rcases hrest with ⟨hp, hs⟩ | hlen
    · exact Or.inr (Or.inl ⟨hp, by simpa using hs⟩)
    · exact Or.inr (Or.inr (by simpa using hlen))

theorem pipe_step_decreases (streaming has_handler : Bool)
    (max_pages : Option Nat) (transform : JValue → Nat → JValue)
    (s s' : PipeState) (evs : List Event)
    (h : pipe_step streaming has_handler max_pages transform s = .step evs s') :
    pipe_measure s' < pipe_measure s := by
  unfold pipe_step at h
  unfold pipe_measure
  split at h
  · rename_i o hp
    rcases handle_outcome_step _ _ _ _ _ _ _ _ h with
      ⟨hs, hpd, hce, hlt⟩ | ⟨hpd, hs⟩ | hlen
    · simp [hs, hpd, hp]
      omega
    · simp [hs, hpd, hp]
      omega
    · simp [hp]
      cases hq : s'.pending <;> simp [hq] <;> omega
  · split at h
    · exact absurd h (by simp)
    · rename_i o rest hscr
      have h2 : ∃ evs0, handle_outcome streaming has_handler max_pages transform o { s with script := rest } = .step evs0 s' := by
        cases hho : handle_outcome streaming has_handler max_pages transform o { s with script := rest } with
        | halt e r t => rw [hho] at h; exact absurd h (by simp [prepend_step])
        | step e t => rw [hho] at h; simp [prepend_step] at h; exact ⟨e, by rw [h.2]⟩
      obtain ⟨evs0, h2⟩ := h2
      rcases handle_outcome_step _ _ _ _ _ _ _ _ h2 with
        ⟨hs, hpd, hce, hlt⟩ | ⟨hpd, hs⟩ | hlen
      · simp at hs hpd
        simp [hs, hpd, hscr]
        omega
      · simp at hs hpd
        simp [hs, hpd, hscr]
        omega
      · simp at hlen
        simp [hscr]
        cases hq : s'.pending <;> simp [hq] <;> omega

/-- Prepend an iteration's events to a finished run's trace. -/
def with_events (evs : List Event) (r : RunResult) : RunResult :=
  { r with trace := evs ++ r.trace }

/-- The while loop of run_crawl_pipeline: repeat pipe_step until it halts,
then run the shared exit path (final best-effort save, return value). -/
def run_loop (streaming has_handler : Bool) (max_pages : Option Nat)
    (transform : JValue → Nat → JValue) (s : PipeState) : RunResult :=
  match h : pipe_step streaming has_handler max_pages transform s with
  | .halt evs r s' => with_events evs (finish streaming s' r)
  | .step evs s' => with_events evs (run_loop streaming has_handler max_pages transform s')
termination_by pipe_measure s
decreasing_by exact pipe_step_decreases _ _ _ _ _ _ _ h

/-- The checkpoint loaded by ProgressManager.load at startup:
state.get("cursor") and state.get("page_no", 0). -/
structure SavedState where
  cursor : JValue
  page_no : Nat
deriving Repr

/-- pipeline lines 123-131: seed cursor and page number from the loaded
checkpoint when resume is enabled and a checkpoint exists; otherwise start
from the empty cursor and page 0. -/
def init_pipe_state (resume : Bool) (saved : Option SavedState)
    (cfg : CrawlerConfig) (script : List Outcome) : PipeState :=
  let seeded : JValue × Nat :=
    match resume, saved with
    | true, some st => (st.cursor, st.page_no)
    | _, _ => (JValue.null, 0)
  { script := script, pending := none, after := seeded.1, page_no := seeded.2,
    consecutive_errors := 0, collected := [], stream_count := 0,
    client := mkGraphQLClient cfg }

/-- service.pipeline.run_crawl_pipeline, as a deterministic interpreter
over the scripted world of fetch outcomes. -/
def run_crawl_pipeline (streaming has_handler : Bool) (max_pages : Option Nat)
    (resume : Bool) (saved : Option SavedState) (cfg : CrawlerConfig)
    (transform : JValue → Nat → JValue) (script : List Outcome) : RunResult :=
  run_loop streaming has_handler max_pages transform
    (init_pipe_state resume saved cfg script)

/-- page_no values of the periodic (page-cadence) checkpoint writes. -/
def periodic_pages : List Event → List Nat
  | [] => []
  | .savePeriodic ck :: rest => ck.page_no :: periodic_pages rest
  | _ :: rest => periodic_pages rest

/-- The label of the first processed page in a trace, if any. -/
def first_processed (evs : List Event) : Option Nat :=
  evs.findSome? (fun e => match e with | .processed p _ => some p | _ => none)

/-- Number of issued page requests in a trace. -/
def count_fetches : List Event → Nat
  | [] => 0
  | .fetch _ _ :: rest => count_fetches rest + 1
  | _ :: rest => count_fetches rest

/-- Number of fixed rate-limit cooldown sleeps in a trace. -/
def count_rate_sleeps : List Event → Nat
  | [] => 0
  | .rateLimitSleep _ :: rest => count_rate_sleeps rest + 1
  | _ :: rest => count_rate_sleeps rest

/-- The periodic checkpoint stores nothing about produced records. -/
def periodic_save_zeroed : Event → Bool
  | .savePeriodic ck => ck.records_count == 0 && ck.sample_record.isNone
  | _ => true

/-- The (cursor-free view of the) final checkpoint writes in a trace. -/
def final_save_pages : List Event → List Nat
  | [] => []
  | .saveFinal ck :: rest => ck.page_no :: final_save_pages rest
  | _ :: rest => final_save_pages rest

/-- Continue a run from an already-computed step result. -/
def resume_step (streaming has_handler : Bool) (max_pages : Option Nat)
    (transform : JValue → Nat → JValue) : StepRes → RunResult
  | .halt evs r s' => with_events evs (finish streaming s' r)
  | .step evs s' => with_events evs (run_loop streaming has_handler max_pages transform s')

theorem run_loop_eq (streaming has_handler : Bool) (max_pages : Option Nat)
    (transform : JValue → Nat → JValue) (s : PipeState) :
    run_loop streaming has_handler max_pages transform s =
      resume_step streaming has_handler max_pages transform
        (pipe_step streaming has_handler max_pages transform s) := by
  rw [run_loop.eq_def]
  cases h : pipe_step streaming has_handler max_pages transform s <;> simp [resume_step]

/-- The events of one step, whether it halts or continues. -/
def events_of : StepRes → List Event
  | .halt evs _ _ => evs
  | .step evs _ => evs

theorem periodic_pages_append (a b : List Event) :
    periodic_pages (a ++ b) = periodic_pages a ++ periodic_pages b := by
  induction a with
  | nil => simp [periodic_pages]
  | cons e rest ih => cases e <;> simp [periodic_pages, ih]

theorem first_processed_append (a b : List Event) :
    first_processed (a ++ b) =
      (first_processed a).orElse (fun _ => first_processed b) := by
  induction a with
  | nil => simp [first_processed]
  | cons e rest ih =>
    cases e <;> simp [first_processed, List.findSome?_cons] at ih ⊢ <;> exact ih

/-- Number of final checkpoint writes in a trace. -/
def count_final_saves : List Event → Nat
  | [] => 0
  | .saveFinal _ :: rest => count_final_saves rest + 1
  | _ :: rest => count_final_saves rest

theorem count_final_saves_append (a b : List Event) :
    count_final_saves (a ++ b) = count_final_saves a + count_final_saves b := by
  induction a with
  | nil => simp [count_final_saves]
  | cons e rest ih => cases e <;> simp [count_final_saves, ih] <;> omega

theorem periodic_pages_final_save (streaming : Bool) (s : PipeState) :
    periodic_pages (final_save_events streaming s) = [] := by
  unfold final_save_events
  split <;> simp [periodic_pages]

theorem first_processed_final_save (streaming : Bool) (s : PipeState) :
    first_processed (final_save_events streaming s) = none := by
  unfold final_save_events
  split <;> simp [first_processed]

theorem handle_validated_pages (streaming has_handler : Bool)
    (max_pages : Option Nat) (transform : JValue → Nat → JValue)
    (data : JValue) (t_req_ms : ℚ) (s : PipeState) :
    (∀ evs r s', handle_validated streaming has_handler max_pages transform data t_req_ms s = .halt evs r s' →
      (periodic_pages evs = [] ∨ periodic_pages evs = [s.page_no + 1]) ∧ s'.page_no = s.page_no) ∧
    (∀ evs s', handle_validated streaming has_handler max_pages transform data t_req_ms s = .step evs s' →
      (periodic_pages evs = [] ∨ periodic_pages evs = [s.page_no + 1]) ∧ s'.page_no = s.page_no + 1) := by
  constructor
  · intro evs r s' h
    unfold handle_validated at h
    dsimp only at h
    repeat' split at h
    all_goals (try simp_all [periodic_pages, periodic_pages_append])
    all_goals (obtain ⟨h1, h2⟩ := h; try obtain ⟨h2, h3⟩ := h2; subst_vars; simp_all [periodic_pages, periodic_pages_append, mkCkptRecord])
  · intro evs s' h
    unfold handle_validated at h
    dsimp only at h
    repeat' split at h
    all_goals (try simp_all [periodic_pages, periodic_pages_append])
    all_goals (obtain ⟨h1, h2⟩ := h; try obtain ⟨h2, h3⟩ := h2; subst_vars; simp_all [periodic_pages, periodic_pages_append, mkCkptRecord])

theorem handle_outcome_pages (streaming has_handler : Bool)
    (max_pages : Option Nat) (transform : JValue → Nat → JValue)
    (o : Outcome) (s : PipeState) :
    (∀ evs r s', handle_outcome streaming has_handler max_pages transform o s = .halt evs r s' →
      (periodic_pages evs = [] ∨ periodic_pages evs = [s.page_no + 1]) ∧ s'.page_no = s.page_no) ∧
    (∀ evs s', handle_outcome streaming has_handler max_pages transform o s = .step evs s' →
      ((periodic_pages evs = [] ∧ s'.page_no = s.page_no) ∨
       ((periodic_pages evs = [] ∨ periodic_pages evs = [s.page_no + 1]) ∧ s'.page_no = s.page_no + 1))) := by
  constructor
  · intro evs r s' h
    unfold handle_outcome at h
    repeat' split at h
    all_goals (try simp_all [periodic_pages])
    all_goals (try (obtain ⟨h1, h2, h3⟩ := h; subst h1; subst h3; simp_all [periodic_pages]))
    all_goals (have hv := (handle_validated_pages streaming has_handler max_pages transform _ _ _).1 _ _ _ h; simpa [periodic_pages] using hv)
  · intro evs s' h
    unfold handle_outcome at h
    repeat' split at h
    all_goals (try simp_all [periodic_pages])
    all_goals (try (obtain ⟨h1, h2⟩ := h; subst h1; subst h2; simp_all [periodic_pages]))
    all_goals (have hv := (handle_validated_pages streaming has_handler max_pages transform _ _ _).2 _ _ h;
               rcases hv with ⟨hpp, hpn⟩;
               exact Or.inr ⟨by simpa using hpp, by simpa using hpn⟩)

theorem pipe_step_pages (streaming has_handler : Bool)
    (max_pages : Option Nat) (transform : JValue → Nat → JValue) (s : PipeState) :
    (∀ evs r s', pipe_step streaming has_handler max_pages transform s = .halt evs r s' →
      (periodic_pages evs = [] ∨ periodic_pages evs = [s.page_no + 1]) ∧ s'.page_no = s.page_no) ∧
    (∀ evs s', pipe_step streaming has_handler max_pages transform s = .step evs s' →
      ((periodic_pages evs = [] ∧ s'.page_no = s.page_no) ∨
       ((periodic_pages evs = [] ∨ periodic_pages evs = [s.page_no + 1]) ∧ s'.page_no = s.page_no + 1))) := by
  unfold pipe_step
  split
  · exact handle_outcome_pages _ _ _ _ _ _
  · split
    · constructor
      · intro evs r s' h
        simp only [StepRes.halt.injEq] at h
        obtain ⟨h1, h2, h3⟩ := h
        subst h1
        subst h3
        simp [periodic_pages]
      · intro evs s' h
        exact absurd h (by simp)
    · rename_i o rest hscr
      constructor
      · intro evs r s' h
        cases hho : handle_outcome streaming has_handler max_pages transform o { s with script := rest } with
        | halt e rsn t =>
          rw [hho] at h
          simp [prepend_step] at h
          obtain ⟨h1, h2, h3⟩ := h
          subst h1
          subst h3
          have := ((handle_outcome_pages streaming has_handler max_pages transform o _).1 _ _ _ hho)
          simpa [periodic_pages] using this
        | step e t => rw [hho] at h; exact absurd h (by simp [prepend_step])
      · intro evs s' h
        cases hho : handle_outcome streaming has_handler max_pages transform o { s with script := rest } with
        | halt e rsn t => rw [hho] at h; exact absurd h (by simp [prepend_step])
        | step e t =>
          rw [hho] at h
          simp [prepend_step] at h
          obtain ⟨h1, h2⟩ := h
          subst h1
          subst h2
          have := ((handle_outcome_pages streaming has_handler max_pages transform o _).2 _ _ hho)
          simpa [periodic_pages] using this

theorem handle_validated_processed (streaming has_handler : Bool)
    (max_pages : Option Nat) (transform : JValue → Nat → JValue)
    (data : JValue) (t_req_ms : ℚ) (s : PipeState) :
    (∀ evs r s', handle_validated streaming has_handler max_pages transform data t_req_ms s = .halt evs r s' →
      first_processed evs = none ∨ first_processed evs = some (s.page_no + 1)) ∧
    (∀ evs s', handle_validated streaming has_handler max_pages transform data t_req_ms s = .step evs s' →
      first_processed evs = some (s.page_no + 1)) := by
  constructor
  · intro evs r s' h
    unfold handle_validated at h
    dsimp only at h
    repeat' split at h
    all_goals (try simp_all [first_processed])
    all_goals (obtain ⟨h1, h2⟩ := h; try obtain ⟨h2, h3⟩ := h2; subst_vars; simp_all [first_processed, first_processed_append, List.findSome?])
  · intro evs s' h
    unfold handle_validated at h
    dsimp only at h
    repeat' split at h
    all_goals (try simp_all [first_processed])
    all_goals (obtain ⟨h1, h2⟩ := h; try obtain ⟨h2, h3⟩ := h2; subst_vars; simp_all [first_processed, first_processed_append, List.findSome?])

theorem handle_outcome_processed (streaming has_handler : Bool)
    (max_pages : Option Nat) (transform : JValue → Nat → JValue)
    (o : Outcome) (s : PipeState) :
    (∀ evs r s', handle_outcome streaming has_handler max_pages transform o s = .halt evs r s' →
      first_processed evs = none ∨ first_processed evs = some (s.page_no + 1)) ∧
    (∀ evs s', handle_outcome streaming has_handler max_pages transform o s = .step evs s' →
      ((first_processed evs = none ∧ s'.page_no = s.page_no) ∨
       first_processed evs = some (s.page_no + 1))) := by
  constructor
  · intro evs r s' h
    unfold handle_outcome at h
    repeat' split at h
    all_goals (try simp_all [first_processed])
    all_goals (try (obtain ⟨h1, h2, h3⟩ := h; subst h1; subst h3; simp_all [first_processed, List.findSome?]))
    all_goals (have hv := (handle_validated_processed streaming has_handler max_pages transform _ _ _).1 _ _ _ h; simpa [first_processed] using hv)
  · intro evs s' h
    unfold handle_outcome at h
    repeat' split at h
    all_goals (try simp_all [first_processed])
    all_goals (try (obtain ⟨h1, h2⟩ := h; subst h1; subst h2; simp_all [first_processed, List.findSome?]))
    all_goals (have hv := (handle_validated_processed streaming has_handler max_pages transform _ _ _).2 _ _ h;
               exact Or.inr (by simpa using hv))

theorem pipe_step_processed (streaming has_handler : Bool)
    (max_pages : Option Nat) (transform : JValue → Nat → JValue) (s : PipeState) :
    (∀ evs r s', pipe_step streaming has_handler max_pages transform s = .halt evs r s' →
      first_processed evs = none ∨ first_processed evs = some (s.page_no + 1)) ∧
    (∀ evs s', pipe_step streaming has_handler max_pages transform s = .step evs s' →
      ((first_processed evs = none ∧ s'.page_no = s.page_no) ∨
       first_processed evs = some (s.page_no + 1))) := by
  unfold pipe_step
  split
  · exact handle_outcome_processed _ _ _ _ _ _
  · split
    · constructor
      · intro evs r s' h
        simp only [StepRes.halt.injEq] at h
        obtain ⟨h1, h2, h3⟩ := h
        subst h1
        simp [first_processed]
      · intro evs s' h
        exact absurd h (by simp)
    · rename_i o rest hscr
      constructor
      · intro evs r s' h
        cases hho : handle_outcome streaming has_handler max_pages transform o { s with script := rest } with
        | halt e rsn t =>
          rw [hho] at h
          simp [prepend_step] at h
          obtain ⟨h1, h2, h3⟩ := h
          subst h1
          have := ((handle_outcome_processed streaming has_handler max_pages transform o _).1 _ _ _ hho)
          simpa [first_processed, List.findSome?] using this
        | step e t => rw [hho] at h; exact absurd h (by simp [prepend_step])
      · intro evs s' h
        cases hho : handle_outcome streaming has_handler max_pages transform o { s with script := rest } with
        | halt e rsn t => rw [hho] at h; exact absurd h (by simp [prepend_step])
        | step e t =>
          rw [hho] at h
          simp [prepend_step] at h
          obtain ⟨h1, h2⟩ := h
          subst h1
          subst h2
          have := ((handle_outcome_processed streaming has_handler max_pages transform o _).2 _ _ hho)
          simpa [first_processed, List.findSome?] using this

theorem handle_validated_zeroed (has_handler : Bool)
    (max_pages : Option Nat) (transform : JValue → Nat → JValue)
    (data : JValue) (t_req_ms : ℚ) (s : PipeState) :
    (events_of (handle_validated true has_handler max_pages transform data t_req_ms s)).all periodic_save_zeroed = true := by
  unfold handle_validated
  dsimp only
  repeat' split
  all_goals simp_all [events_of, periodic_save_zeroed, mkCkptRecord]

theorem pipe_step_zeroed (has_handler : Bool)
    (max_pages : Option Nat) (transform : JValue → Nat → JValue)
    (s : PipeState) :
    (events_of (pipe_step true has_handler max_pages transform s)).all periodic_save_zeroed = true := by
  have ho : ∀ o s0, (events_of (handle_outcome true has_handler max_pages transform o s0)).all periodic_save_zeroed = true := by
    intro o s0
    cases o with
    | interrupt => simp [handle_outcome, events_of]
    | netErr => simp [handle_outcome, events_of]
    | unexpected => simp [handle_outcome, events_of]
    | resp st ra t body =>
      unfold handle_outcome
      repeat' split
      all_goals first
        | exact handle_validated_zeroed has_handler max_pages transform _ _ _
        | simp [events_of, periodic_save_zeroed]
  unfold pipe_step
  split
  · exact ho _ _
  · split
    · simp [events_of]
    · rename_i o2 rest hscr
      have h2 := ho o2 { s with script := rest }
      revert h2
      cases handle_outcome true has_handler max_pages transform o2 { s with script := rest } with
      | halt e rsn t => intro h2; simpa [prepend_step, events_of, periodic_save_zeroed] using h2
      | step e t => intro h2; simpa [prepend_step, events_of, periodic_save_zeroed] using h2

theorem handle_validated_no_final (streaming has_handler : Bool)
    (max_pages : Option Nat) (transform : JValue → Nat → JValue)
    (data : JValue) (t_req_ms : ℚ) (s : PipeState) :
    count_final_saves (events_of (handle_validated streaming has_handler max_pages transform data t_req_ms s)) = 0 := by
  unfold handle_validated
  dsimp only
  repeat' split
  all_goals simp_all [events_of, count_final_saves, count_final_saves_append]

theorem pipe_step_no_final (streaming has_handler : Bool)
    (max_pages : Option Nat) (transform : JValue → Nat → JValue) (s : PipeState) :
    count_final_saves (events_of (pipe_step streaming has_handler max_pages transform s)) = 0 := by
  have ho : ∀ o s0, count_final_saves (events_of (handle_outcome streaming has_handler max_pages transform o s0)) = 0 := by
    intro o s0
    cases o with
    | interrupt => simp [handle_outcome, events_of, count_final_saves]
    | netErr => simp [handle_outcome, events_of, count_final_saves]
    | unexpected => simp [handle_outcome, events_of, count_final_saves]
    | resp st ra t body =>
      unfold handle_outcome
      repeat' split
      all_goals first
        | exact handle_validated_no_final streaming has_handler max_pages transform _ _ _
        | simp [events_of, count_final_saves]
  unfold pipe_step
  split
  · exact ho _ _
  · split
    · simp [events_of, count_final_saves]
    · rename_i o2 rest hscr
      have h2 := ho o2 { s with script := rest }
      revert h2
      cases handle_outcome streaming has_handler max_pages transform o2 { s with script := rest } with
      | halt e rsn t => intro h2; simpa [prepend_step, events_of, count_final_saves] using h2
      | step e t => intro h2; simpa [prepend_step, events_of, count_final_saves] using h2

theorem run_loop_periodic (streaming has_handler : Bool) (max_pages : Option Nat)
    (transform : JValue → Nat → JValue) (s : PipeState) :
    List.Pairwise (· < ·) (periodic_pages (run_loop streaming has_handler max_pages transform s).trace) ∧
    (∀ p ∈ periodic_pages (run_loop streaming has_handler max_pages transform s).trace, s.page_no < p) := by
  induction s using run_loop.induct streaming has_handler max_pages transform with
  | case1 s evs r s' hps =>
    rw [run_loop_eq, hps]
    simp only [resume_step, with_events, finish, periodic_pages_append, periodic_pages_final_save, List.append_nil]
    rcases (pipe_step_pages _ _ _ _ _).1 _ _ _ hps with ⟨hpp | hpp, hpn⟩ <;> simp [hpp]
  | case2 s evs s' hps ih =>
    rw [run_loop_eq, hps]
    simp only [resume_step, with_events, periodic_pages_append]
    rcases (pipe_step_pages _ _ _ _ _).2 _ _ hps with ⟨hpp, hpn⟩ | ⟨hpp | hpp, hpn⟩
    · simp only [hpp, List.nil_append]
      refine ⟨ih.1, fun p hp => ?_⟩
      have := ih.2 p hp
      omega
    · simp only [hpp, List.nil_append]
      refine ⟨ih.1, fun p hp => ?_⟩
      have := ih.2 p hp
      omega
    · simp only [hpp, List.cons_append, List.nil_append, List.pairwise_cons]
      refine ⟨⟨fun p hp => ?_, ih.1⟩, fun p hp => ?_⟩
      · have := ih.2 p hp
        omega
      · simp only [List.mem_cons] at hp
        rcases hp with rfl | hp
        · omega
        · have := ih.2 p hp
          omega

theorem run_loop_first_processed (streaming has_handler : Bool) (max_pages : Option Nat)
    (transform : JValue → Nat → JValue) (s : PipeState) :
    first_processed (run_loop streaming has_handler max_pages transform s).trace = none ∨
    first_processed (run_loop streaming has_handler max_pages transform s).trace = some (s.page_no + 1) := by
  induction s using run_loop.induct streaming has_handler max_pages transform with
  | case1 s evs r s' hps =>
    rw [run_loop_eq, hps]
    simp only [resume_step, with_events, finish, first_processed_append, first_processed_final_save]
    rcases (pipe_step_processed _ _ _ _ _).1 _ _ _ hps with hfp | hfp <;> simp [hfp]
  | case2 s evs s' hps ih =>
    rw [run_loop_eq, hps]
    simp only [resume_step, with_events, first_processed_append]
    rcases (pipe_step_processed _ _ _ _ _).2 _ _ hps with ⟨hfp, hpn⟩ | hfp
    · simp only [hfp, Option.orElse_none, Option.none_orElse]
      rcases ih with ih | ih <;> simp [ih, hpn]
    · simp [hfp]

theorem final_save_events_zeroed (streaming : Bool) (s : PipeState) :
    (final_save_events streaming s).all periodic_save_zeroed = true := by
  unfold final_save_events
  split <;> simp [periodic_save_zeroed]

theorem run_loop_zeroed (has_handler : Bool) (max_pages : Option Nat)
    (transform : JValue → Nat → JValue) (s : PipeState) :
    (run_loop true has_handler max_pages transform s).trace.all periodic_save_zeroed = true := by
  induction s using run_loop.induct true has_handler max_pages transform with
  | case1 s evs r s' hps =>
    rw [run_loop_eq, hps]
    have h1 := pipe_step_zeroed has_handler max_pages transform s
    rw [hps] at h1
    simp only [events_of] at h1
    simp [resume_step, with_events, finish, List.all_append, h1, final_save_events_zeroed]
  | case2 s evs s' hps ih =>
    rw [run_loop_eq, hps]
    have h1 := pipe_step_zeroed has_handler max_pages transform s
    rw [hps] at h1
    simp only [events_of] at h1
    simp [resume_step, with_events, List.all_append, h1, ih]

theorem run_loop_streaming_no_final (has_handler : Bool) (max_pages : Option Nat)
    (transform : JValue → Nat → JValue) (s : PipeState) :
    count_final_saves (run_loop true has_handler max_pages transform s).trace = 0 := by
  induction s using run_loop.induct true has_handler max_pages transform with
  | case1 s evs r s' hps =>
    rw [run_loop_eq, hps]
    have h1 := pipe_step_no_final true has_handler max_pages transform s
    rw [hps] at h1
    simp only [events_of] at h1
    simp [resume_step, with_events, finish, count_final_saves_append, h1, final_save_events, count_final_saves]
  | case2 s evs s' hps ih =>
    rw [run_loop_eq, hps]
    have h1 := pipe_step_no_final true has_handler max_pages transform s
    rw [hps] at h1
    simp only [events_of] at h1
    simp [resume_step, with_events, count_final_saves_append, h1, ih]

theorem run_loop_collected_final (has_handler : Bool) (max_pages : Option Nat)
    (transform : JValue → Nat → JValue) (s : PipeState) :
    (¬(run_loop false has_handler max_pages transform s).collected.isEmpty = true →
      (run_loop false has_handler max_pages transform s).trace.getLast? =
        some (.saveFinal (mkCkptRecord
          (run_loop false has_handler max_pages transform s).final.after
          (run_loop false has_handler max_pages transform s).final.page_no
          (run_loop false has_handler max_pages transform s).collected))) ∧
    ((run_loop false has_handler max_pages transform s).collected.isEmpty = true →
      count_final_saves (run_loop false has_handler max_pages transform s).trace = 0) := by
  induction s using run_loop.induct false has_handler max_pages transform with
  | case1 s evs r s' hps =>
    rw [run_loop_eq, hps]
    have h1 := pipe_step_no_final false has_handler max_pages transform s
    rw [hps] at h1
    simp only [events_of] at h1
    constructor
    · intro hne
      simp only [resume_step, with_events, finish] at hne ⊢
      simp at hne
      simp [final_save_events, hne, List.getLast?_append]
    · intro hemp
      simp only [resume_step, with_events, finish] at hemp ⊢
      simp at hemp
      simp [count_final_saves_append, h1, final_save_events, hemp, count_final_saves]
  | case2 s evs s' hps ih =>
    rw [run_loop_eq, hps]
    have h1 := pipe_step_no_final false has_handler max_pages transform s
    rw [hps] at h1
    simp only [events_of] at h1
    constructor
    · intro hne
      simp only [resume_step, with_events] at hne ⊢
      have hlast := ih.1 (by simpa using hne)
      simp [List.getLast?_append, hlast]
    · intro hemp
      simp only [resume_step, with_events] at hemp ⊢
      have := ih.2 (by simpa using hemp)
      simp [count_final_saves_append, h1, this]

/-- Fuel-indexed version of the loop, used to evaluate concrete runs; any
fuel above pipe_measure gives the same result as run_loop. -/
def run_loop_fuel (streaming has_handler : Bool) (max_pages : Option Nat)
    (transform : JValue → Nat → JValue) : Nat → PipeState → RunResult
  | 0, s => finish streaming s .scriptEnd
  | n + 1, s =>
    match pipe_step streaming has_handler max_pages transform s with
    | .halt evs r s' => with_events evs (finish streaming s' r)
    | .step evs s' => with_events evs (run_loop_fuel streaming has_handler max_pages transform n s')

theorem run_loop_fuel_spec (streaming has_handler : Bool) (max_pages : Option Nat)
    (transform : JValue → Nat → JValue) (n : Nat) (s : PipeState)
    (h : pipe_measure s < n) :
    run_loop_fuel streaming has_handler max_pages transform n s =
      run_loop streaming has_handler max_pages transform s := by
  induction n generalizing s with
  | zero => omega
  | succ n ih =>
    rw [run_loop_eq]
    cases hps : pipe_step streaming has_handler max_pages transform s with
    | halt evs r s' => simp [run_loop_fuel, hps, resume_step]
    | step evs s' =>
      have hd := pipe_step_decreases _ _ _ _ _ _ _ hps
      simp [run_loop_fuel, hps, resume_step, ih s' (by omega)]

theorem run_loop_first_fetch (streaming has_handler : Bool) (max_pages : Option Nat)
    (transform : JValue → Nat → JValue) (s : PipeState) (o : Outcome)
    (rest : List Outcome) (hp : s.pending = none) (hs : s.script = o :: rest) :
    (run_loop streaming has_handler max_pages transform s).trace.head? =
      some (.fetch s.after false) := by
  rw [run_loop_eq]
  simp only [pipe_step, hp, hs]
  cases hho : handle_outcome streaming has_handler max_pages transform o { s with script := rest, pending := none } <;>
    simp [prepend_step, resume_step, with_events, hho]

/-- Labels of the processed pages, in order. -/
def processed_labels : List Event → List Nat
  | [] => []
  | .processed p _ :: rest => p :: processed_labels rest
  | _ :: rest => processed_labels rest

/-- Transform stand-in for concrete runs (the Bronze mapping itself is a
stateless per-item function outside the orchestration core). -/
def id_transform : JValue → Nat → JValue := fun node _ => node

theorem update_backoff_const (c : GraphQLClient) (t : ℚ) :
    (update_backoff c t).base_delay_sec = c.base_delay_sec ∧
    (update_backoff c t).backoff_threshold_ms = c.backoff_threshold_ms ∧
    (update_backoff c t).backoff_step_sec = c.backoff_step_sec ∧
    (update_backoff c t).backoff_max_sec = c.backoff_max_sec := by
  unfold update_backoff
  split_ifs <;> simp

theorem run_backoff_const (c : GraphQLClient) (ls : List ℚ) :
    (run_backoff c ls).base_delay_sec = c.base_delay_sec ∧
    (run_backoff c ls).backoff_threshold_ms = c.backoff_threshold_ms ∧
    (run_backoff c ls).backoff_step_sec = c.backoff_step_sec ∧
    (run_backoff c ls).backoff_max_sec = c.backoff_max_sec := by
  induction ls generalizing c with
  | nil => simp [run_backoff]
  | cons t rest ih =>
    have h1 := update_backoff_const c t
    have h2 := ih (update_backoff c t)
    unfold run_backoff at h2 ⊢
    simp only [List.foldl_cons]
    exact ⟨h2.1.trans h1.1, h2.2.1.trans h1.2.1, h2.2.2.1.trans h1.2.2.1, h2.2.2.2.trans h1.2.2.2⟩

theorem update_backoff_bounds (c : GraphQLClient) (t : ℚ)
    (hs : 0 ≤ c.backoff_step_sec) (hbm : c.base_delay_sec ≤ c.backoff_max_sec)
    (h1 : c.base_delay_sec ≤ c.current_delay_sec)
    (h2 : c.current_delay_sec ≤ c.backoff_max_sec) :
    c.base_delay_sec ≤ (update_backoff c t).current_delay_sec ∧
    (update_backoff c t).current_delay_sec ≤ c.backoff_max_sec := by
  unfold update_backoff
  split_ifs with g1 g2 g3
  · constructor
    · simp only [le_min_iff]
      constructor
      · exact hbm
      · linarith
    · simp [min_le_left]
  · constructor
    · simp [le_max_left]
    · simp only [max_le_iff]
      constructor
      · exact hbm
      · linarith
  · exact ⟨h1, h2⟩
  · exact ⟨h1, h2⟩

theorem run_backoff_bounds (c : GraphQLClient) (ls : List ℚ)
    (hs : 0 ≤ c.backoff_step_sec) (hbm : c.base_delay_sec ≤ c.backoff_max_sec)
    (h1 : c.base_delay_sec ≤ c.current_delay_sec)
    (h2 : c.current_delay_sec ≤ c.backoff_max_sec) :
    c.base_delay_sec ≤ (run_backoff c ls).current_delay_sec ∧
    (run_backoff c ls).current_delay_sec ≤ c.backoff_max_sec := by
  induction ls generalizing c with
  | nil => exact ⟨h1, h2⟩
  | cons t rest ih =>
    have hb := update_backoff_bounds c t hs hbm h1 h2
    have hc := update_backoff_const c t
    unfold run_backoff
    simp only [List.foldl_cons]
    have := ih (update_backoff c t) (by rw [hc.2.2.1]; exact hs)
      (by rw [hc.1, hc.2.2.2]; exact hbm) (by rw [hc.1]; exact hb.1)
      (by rw [hc.2.2.2]; exact hb.2)
    rw [hc.1, hc.2.2.2] at this
    exact this

theorem update_backoff_characterization (c : GraphQLClient) (t : ℚ)
    (hs : 0 ≤ c.backoff_step_sec) (h2 : c.current_delay_sec ≤ c.backoff_max_sec) :
    (c.current_delay_sec < (update_backoff c t).current_delay_sec →
      c.backoff_threshold_ms < t ∧
      (update_backoff c t).current_delay_sec =
        min c.backoff_max_sec (c.current_delay_sec + c.backoff_step_sec)) ∧
    ((update_backoff c t).current_delay_sec < c.current_delay_sec →
      c.base_delay_sec < c.current_delay_sec ∧ t < (1 / 2) * c.backoff_threshold_ms ∧
      (update_backoff c t).current_delay_sec =
        max c.base_delay_sec (c.current_delay_sec - c.backoff_step_sec / 2)) ∧
    (¬(c.backoff_threshold_ms < t) ∧
      ¬(c.base_delay_sec < c.current_delay_sec ∧ t < (1 / 2) * c.backoff_threshold_ms) →
      (update_backoff c t).current_delay_sec = c.current_delay_sec) := by
  unfold update_backoff
  split_ifs with g1 g2 g3
  · refine ⟨fun _ => ⟨g2, rfl⟩, fun hlt => absurd hlt ?_, fun hc => absurd g2 hc.1⟩
    simp only [not_lt, le_min_iff]
    exact ⟨h2, by linarith⟩
  · refine ⟨fun hgt => absurd hgt ?_, fun _ => ⟨g3.1, g3.2, rfl⟩, fun hc => absurd g3 hc.2⟩
    simp only [not_lt, max_le_iff]
    exact ⟨le_of_lt g3.1, by linarith⟩
  · exact ⟨fun hgt => absurd rfl (ne_of_gt hgt), fun hlt => absurd rfl (ne_of_gt hlt), fun _ => rfl⟩
  · exact ⟨fun hgt => absurd rfl (ne_of_gt hgt), fun hlt => absurd rfl (ne_of_gt hlt), fun _ => rfl⟩

/-- The invariant a buffer-threshold sink maintains between add calls. -/
def sink_inv (B : Nat) (st : SinkState) : Prop :=
  st.buffer_size = B ∧ st.buffer.length < B ∧
  st.record_count = st.written.length + st.buffer.length ∧
  st.synced_len = st.written.length ∧ B ∣ st.written.length

theorem add_record_preserves_open (B : Nat) (hB : 1 ≤ B) (st : SinkState) (r : JValue)
    (ho : st.file_open = true) (inv : sink_inv B st) :
    ∃ st', add_record none st r = .ok st' ∧ sink_inv B st' ∧
      st'.record_count = st.record_count + 1 := by
  obtain ⟨i1, i2, i3, i4, i5⟩ := inv
  obtain ⟨k, hk⟩ := i5
  unfold add_record sink_flush
  simp only [ho, if_true]
  split_ifs with h2 h3
  · exfalso
    simp [ho] at h3
  · simp only [List.length_append, List.length_cons, List.length_nil, i1] at h2
    have hlen : st.buffer.length + 1 = B := by omega
    refine ⟨_, rfl, ⟨i1, by simp; omega, by simp; omega, by simp, ?_⟩, by simp⟩
    simp only [List.length_append, List.length_cons, List.length_nil]
    exact ⟨k + 1, by rw [Nat.mul_add, ← hk]; omega⟩
  · simp only [List.length_append, List.length_cons, List.length_nil, i1] at h2
    exact ⟨_, rfl, ⟨i1, by simp; omega, by simp; omega, by simpa using i4, ⟨k, by simpa using hk⟩⟩, by simp⟩

theorem add_record_preserves (B : Nat) (hB : 1 ≤ B) (st : SinkState) (r : JValue)
    (inv : sink_inv B st) :
    ∃ st', add_record none st r = .ok st' ∧ sink_inv B st' ∧
      st'.record_count = st.record_count + 1 := by
  by_cases ho : st.file_open
  · exact add_record_preserves_open B hB st r ho inv
  · obtain ⟨i1, i2, i3, i4, i5⟩ := inv
    have inv' : sink_inv B { st with file_open := true } := ⟨i1, i2, i3, i4, i5⟩
    obtain ⟨st', he, hinv, hc⟩ := add_record_preserves_open B hB { st with file_open := true } r rfl inv'
    refine ⟨st', ?_, hinv, by simpa using hc⟩
    rw [← he]
    unfold add_record
    simp [ho]

theorem add_all_inv (B : Nat) (hB : 1 ≤ B) (rs : List JValue) (st : SinkState)
    (inv : sink_inv B st) :
    sink_inv B (add_all st rs) ∧
    (add_all st rs).record_count = st.record_count + rs.length := by
  induction rs generalizing st with
  | nil => exact ⟨inv, by simp [add_all]⟩
  | cons r rest ih =>
    obtain ⟨st', he, hinv, hc⟩ := add_record_preserves B hB st r inv
    unfold add_all
    simp only [List.foldl_cons, he]
    have h2 := ih st' hinv
    unfold add_all at h2
    refine ⟨h2.1, ?_⟩
    rw [h2.2, hc]
    simp
    omega

theorem mapE_length (f : α → Except PyErr β) (xs : List α) (ys : List β)
    (h : mapE f xs = .ok ys) : ys.length = xs.length := by
  induction xs generalizing ys with
  | nil => simp [mapE] at h; simp [← h]
  | cons x rest ih =>
    unfold mapE at h
    split at h
    · exact absurd h (by simp)
    · split at h
      · exact absurd h (by simp)
      · rename_i y hy yr hyr
        simp only [Except.ok.injEq] at h
        subst h
        simp [ih _ hyr]

/-- A raw edge as the remote catalog returns it. -/
def sample_item : JValue := .obj [("node", .obj [("id", .str "t1")])]

/-- A second raw edge. -/
def sample_item2 : JValue := .obj [("node", .obj [("id", .str "t2")])]

/-- A response body with the advancedTitleSearch envelope, the given edge
list and pageInfo block. -/
def page_body (edges : List JValue) (has_next : JValue) (end_cursor : JValue) : JValue :=
  .obj [("data", .obj [("advancedTitleSearch", .obj [
    ("edges", .arr edges),
    ("pageInfo", .obj [("hasNextPage", has_next), ("endCursor", end_cursor)])])])]

/-- The end-to-end two-page scenario: two pages of two items each, the
second page reporting hasNextPage=false with a null end cursor. -/
def two_page_script : List Outcome :=
  [.resp 200 none 100 (some (page_body [sample_item, sample_item2] (.bool true) (.str "c1"))),
   .resp 200 none 100 (some (page_body [sample_item, sample_item2] (.bool false) .null))]

/-- One fast successful page followed by a rate-limited response. -/
def rate_limit_script : List Outcome :=
  [.resp 200 none 100 (some (page_body [sample_item] (.bool true) (.str "c1"))),
   .resp 429 none 50 none]

/-- A single page reporting no further pages. -/
def one_page_script : List Outcome :=
  [.resp 200 none 100 (some (page_body [sample_item, sample_item2] (.bool false) .null))]

/-- C1 counterexample: a transient network fault on the very first fetch
terminates the run as a fatal error after a single request: the trace
holds exactly one fetch event and no retry of the same cursor, and the
consecutive-error counter never absorbed the fault. -/
theorem c1_counterexample :
    (run_crawl_pipeline false false none false none defaultConfig id_transform [.netErr]).trace = [.fetch .null false] ∧
    (run_crawl_pipeline false false none false none defaultConfig id_transform [.netErr]).reason = .fatalError ∧
    (run_crawl_pipeline false false none false none defaultConfig id_transform [.netErr]).final.consecutive_errors = 0 := by
  have h := run_loop_fuel_spec false false none id_transform 13
    (init_pipe_state false none defaultConfig [.netErr]) (by decide)
  unfold run_crawl_pipeline
  rw [← h]
  exact ⟨rfl, rfl, rfl⟩

/-- C1 (amended): a transient-network fault is re-raised as NetworkError
and a non-success, non-rate-limited status as HTTPStatusError; both escape
the loop to the outer fatal handler, ending the run at the first
occurrence with no consecutive-error counting and no retry of the cursor.
Only rate-limited and malformed-payload responses are absorbed and
retried. -/
theorem c1_theorem (streaming has_handler : Bool) (max_pages : Option Nat)
    (transform : JValue → Nat → JValue) (s : PipeState) (rest : List Outcome)
    (status_code : Nat) (retry_after : Option String) (t_req_ms : ℚ)
    (body : Option JValue) (hp : s.pending = none) :
    (s.script = Outcome.netErr :: rest →
      run_loop streaming has_handler max_pages transform s =
        with_events [.fetch s.after false]
          (finish streaming { s with script := rest, pending := none } .fatalError)) ∧
    (s.script = Outcome.resp status_code retry_after t_req_ms body :: rest →
      is_rate_limited status_code retry_after = false →
      is_success_status status_code = false →
      run_loop streaming has_handler max_pages transform s =
        with_events [.fetch s.after false]
          (finish streaming { s with script := rest, pending := none } .fatalError)) := by
  constructor
  · intro hs
    rw [run_loop_eq]
    simp only [pipe_step, hp, hs]
    simp [handle_outcome, prepend_step, resume_step]
  · intro hs hrl hss
    rw [run_loop_eq]
    simp only [pipe_step, hp, hs]
    simp [handle_outcome, prepend_step, resume_step, hrl, hss]

/-- C1 witness: the amended theorem applied to a concrete one-outcome
script. -/
theorem c1_witness :
    (init_pipe_state false none defaultConfig [Outcome.netErr]).pending = none ∧
    (init_pipe_state false none defaultConfig [Outcome.netErr]).script = Outcome.netErr :: [] ∧
    run_loop false false none id_transform (init_pipe_state false none defaultConfig [Outcome.netErr]) =
      with_events [.fetch JValue.null false]
        (finish false { init_pipe_state false none defaultConfig [Outcome.netErr] with script := [], pending := none } .fatalError) :=
  ⟨rfl, rfl,
   (c1_theorem false false none id_transform _ [] 0 none 0 none rfl).1 rfl⟩

/-- C2 counterexample: in the end-to-end two-page scenario (two pages of
two items, second page hasNextPage=false) the run processes pages 1 and 2
but the only checkpoint ever written is the final one with page_no = 1,
not 2: the final save reuses the loop's page_no, which is only
incremented when the loop continues. -/
theorem c2_counterexample :
    processed_labels (run_crawl_pipeline false false none false none defaultConfig id_transform two_page_script).trace = [1, 2] ∧
    final_save_pages (run_crawl_pipeline false false none false none defaultConfig id_transform two_page_script).trace = [1] ∧
    periodic_pages (run_crawl_pipeline false false none false none defaultConfig id_transform two_page_script).trace = [] ∧
    (run_crawl_pipeline false false none false none defaultConfig id_transform two_page_script).collected.length = 4 := by
  have h := run_loop_fuel_spec false false none id_transform 20
    (init_pipe_state false none defaultConfig two_page_script) (by decide)
  unfold run_crawl_pipeline
  rw [← h]
  refine ⟨?_, ?_, ?_, ?_⟩ <;> with_unfolding_all rfl

/-- C2 (amended): within one run the periodic (page-cadence) checkpoint
writes carry strictly increasing page_no values, but the final checkpoint
records the loop's page_no, which is one less than the count of processed
pages when the loop broke on an end condition: in the two-page scenario
the final checkpoint carries page_no = 1, not 2. -/
theorem c2_theorem :
    (∀ (streaming has_handler : Bool) (max_pages : Option Nat)
      (transform : JValue → Nat → JValue) (s : PipeState),
      List.Pairwise (· < ·) (periodic_pages (run_loop streaming has_handler max_pages transform s).trace)) ∧
    final_save_pages (run_crawl_pipeline false false none false none defaultConfig id_transform two_page_script).trace = [1] ∧
    processed_labels (run_crawl_pipeline false false none false none defaultConfig id_transform two_page_script).trace = [1, 2] := by
  refine ⟨fun st hh mp tf s => (run_loop_periodic st hh mp tf s).1, ?_, ?_⟩
  all_goals
    (have h := run_loop_fuel_spec false false none id_transform 20
      (init_pipe_state false none defaultConfig two_page_script) (by decide);
     unfold run_crawl_pipeline;
     rw [← h];
     with_unfolding_all rfl)

/-- The per-step contract of update_backoff used by claim C3. -/
def backoff_step_spec (c : GraphQLClient) (t : ℚ) : Prop :=
  (c.current_delay_sec < (update_backoff c t).current_delay_sec →
    c.backoff_threshold_ms < t ∧
    (update_backoff c t).current_delay_sec =
      min c.backoff_max_sec (c.current_delay_sec + c.backoff_step_sec)) ∧
  ((update_backoff c t).current_delay_sec < c.current_delay_sec →
    c.base_delay_sec < c.current_delay_sec ∧ t < (1 / 2) * c.backoff_threshold_ms ∧
    (update_backoff c t).current_delay_sec =
      max c.base_delay_sec (c.current_delay_sec - c.backoff_step_sec / 2)) ∧
  (¬(c.backoff_threshold_ms < t) ∧
    ¬(c.base_delay_sec < c.current_delay_sec ∧ t < (1 / 2) * c.backoff_threshold_ms) →
    (update_backoff c t).current_delay_sec = c.current_delay_sec)

/-- C3: for every latency sequence fed to update_backoff from a freshly
constructed client whose base delay does not exceed its cap, the current
delay stays within [base_delay, max_delay] after every prefix, and each
step increases (by step, capped) only on a latency strictly above the
threshold, decreases (by step/2, floored) only on a latency strictly below
half the threshold while above base, and is otherwise unchanged. -/
theorem c3_theorem (cfg : CrawlerConfig)
    (h : cfg.page_delay_ms ≤ cfg.backoff_max_ms) (latencies : List ℚ) :
    (∀ pre post, latencies = pre ++ post →
      (mkGraphQLClient cfg).base_delay_sec ≤
        (run_backoff (mkGraphQLClient cfg) pre).current_delay_sec ∧
      (run_backoff (mkGraphQLClient cfg) pre).current_delay_sec ≤
        (mkGraphQLClient cfg).backoff_max_sec) ∧
    (∀ pre t post, latencies = pre ++ t :: post →
      backoff_step_spec (run_backoff (mkGraphQLClient cfg) pre) t) := by
  have hstep : 0 ≤ (mkGraphQLClient cfg).backoff_step_sec := le_max_left 0 _
  have hbm : (mkGraphQLClient cfg).base_delay_sec ≤ (mkGraphQLClient cfg).backoff_max_sec := by
    unfold mkGraphQLClient
    dsimp only
    have : cfg.page_delay_ms / 1000 ≤ cfg.backoff_max_ms / 1000 := by linarith
    exact max_le_max le_rfl this
  have hbounds : ∀ pre : List ℚ,
      (mkGraphQLClient cfg).base_delay_sec ≤
        (run_backoff (mkGraphQLClient cfg) pre).current_delay_sec ∧
      (run_backoff (mkGraphQLClient cfg) pre).current_delay_sec ≤
        (mkGraphQLClient cfg).backoff_max_sec := by
    intro pre
    exact run_backoff_bounds (mkGraphQLClient cfg) pre hstep hbm le_rfl hbm
  constructor
  · intro pre post _
    exact hbounds pre
  · intro pre t post _
    have hc := run_backoff_const (mkGraphQLClient cfg) pre
    refine update_backoff_characterization (run_backoff (mkGraphQLClient cfg) pre) t ?_ ?_
    · rw [hc.2.2.1]
      exact hstep
    · rw [hc.2.2.2]
      exact (hbounds pre).2

/-- C3 witness: the theorem applied to the default configuration and a
concrete latency sequence with one slow and one fast response. -/
theorem c3_witness :
    defaultConfig.page_delay_ms ≤ defaultConfig.backoff_max_ms ∧
    ((∀ pre post, [(2500 : ℚ), 100] = pre ++ post →
      (mkGraphQLClient defaultConfig).base_delay_sec ≤
        (run_backoff (mkGraphQLClient defaultConfig) pre).current_delay_sec ∧
      (run_backoff (mkGraphQLClient defaultConfig) pre).current_delay_sec ≤
        (mkGraphQLClient defaultConfig).backoff_max_sec) ∧
    (∀ pre t post, [(2500 : ℚ), 100] = pre ++ t :: post →
      backoff_step_spec (run_backoff (mkGraphQLClient defaultConfig) pre) t)) :=
  ⟨by norm_num [defaultConfig],
   c3_theorem defaultConfig (by norm_num [defaultConfig]) [2500, 100]⟩

/-- C4 counterexample: a streaming run that processes one page (two
records reach the sink) and exits normally writes no checkpoint at all -
neither periodic nor final - so no terminal exit path persists progress in
streaming mode. -/
theorem c4_counterexample :
    count_final_saves (run_crawl_pipeline true true none false none defaultConfig id_transform one_page_script).trace = 0 ∧
    periodic_pages (run_crawl_pipeline true true none false none defaultConfig id_transform one_page_script).trace = [] ∧
    (run_crawl_pipeline true true none false none defaultConfig id_transform one_page_script).final.stream_count = 2 ∧
    (run_crawl_pipeline true true none false none defaultConfig id_transform one_page_script).reason = .noCursor := by
  have h := run_loop_fuel_spec true true none id_transform 13
    (init_pipe_state false none defaultConfig one_page_script) (by decide)
  unfold run_crawl_pipeline
  rw [← h]
  refine ⟨?_, ?_, ?_, ?_⟩ <;> with_unfolding_all rfl

/-- C4 (amended): a final checkpoint is written on the terminal exit paths
only when the run is not streaming and at least one record was collected;
in that case it is the last event of the run and reflects the exit
state's cursor and page_no.  Streaming runs never write a final
checkpoint, and collected runs with nothing collected write none
either. -/
theorem c4_theorem (has_handler : Bool) (max_pages : Option Nat)
    (resume : Bool) (saved : Option SavedState) (cfg : CrawlerConfig)
    (transform : JValue → Nat → JValue) (script : List Outcome) :
    count_final_saves (run_crawl_pipeline true has_handler max_pages resume saved cfg transform script).trace = 0 ∧
    (¬(run_crawl_pipeline false has_handler max_pages resume saved cfg transform script).collected.isEmpty = true →
      (run_crawl_pipeline false has_handler max_pages resume saved cfg transform script).trace.getLast? =
        some (.saveFinal (mkCkptRecord
          (run_crawl_pipeline false has_handler max_pages resume saved cfg transform script).final.after
          (run_crawl_pipeline false has_handler max_pages resume saved cfg transform script).final.page_no
          (run_crawl_pipeline false has_handler max_pages resume saved cfg transform script).collected))) ∧
    ((run_crawl_pipeline false has_handler max_pages resume saved cfg transform script).collected.isEmpty = true →
      count_final_saves (run_crawl_pipeline false has_handler max_pages resume saved cfg transform script).trace = 0) :=
  ⟨run_loop_streaming_no_final has_handler max_pages transform _,
   (run_loop_collected_final has_handler max_pages transform _).1,
   (run_loop_collected_final has_handler max_pages transform _).2⟩

/-- C4 witness: the amended theorem applied to the concrete two-page
collected-mode run, whose collected list is non-empty. -/
theorem c4_witness :
    ¬(run_crawl_pipeline false false none false none defaultConfig id_transform two_page_script).collected.isEmpty = true ∧
    (run_crawl_pipeline false false none false none defaultConfig id_transform two_page_script).trace.getLast? =
      some (.saveFinal (mkCkptRecord
        (run_crawl_pipeline false false none false none defaultConfig id_transform two_page_script).final.after
        (run_crawl_pipeline false false none false none defaultConfig id_transform two_page_script).final.page_no
        (run_crawl_pipeline false false none false none defaultConfig id_transform two_page_script).collected)) := by
  have hne : ¬(run_crawl_pipeline false false none false none defaultConfig id_transform two_page_script).collected.isEmpty = true := by
    have h := run_loop_fuel_spec false false none id_transform 20
      (init_pipe_state false none defaultConfig two_page_script) (by decide)
    unfold run_crawl_pipeline
    rw [← h]
    with_unfolding_all decide
  exact ⟨hne, (c4_theorem false none false none defaultConfig id_transform two_page_script).2.1 hne⟩

/-- C5 counterexample: when the rate-limited response comes from an
already-completed prefetched task, no new fetch is ever issued: the run
re-reads the same task result, sleeps the cooldown five times, and stops
on the consecutive-error cap - the same cursor is never actually
re-fetched. -/
theorem c5_counterexample :
    count_rate_sleeps (run_crawl_pipeline false false none false none defaultConfig id_transform rate_limit_script).trace = 5 ∧
    count_fetches (run_crawl_pipeline false false none false none defaultConfig id_transform rate_limit_script).trace = 2 ∧
    (run_crawl_pipeline false false none false none defaultConfig id_transform rate_limit_script).reason = .tooManyErrors := by
  have h := run_loop_fuel_spec false false none id_transform 20
    (init_pipe_state false none defaultConfig rate_limit_script) (by decide)
  unfold run_crawl_pipeline
  rw [← h]
  refine ⟨?_, ?_, ?_⟩ <;> with_unfolding_all rfl

/-- C5 (amended): on a rate-limited response obtained from a direct
(non-prefetched) fetch, and below the consecutive-error cap, the
orchestrator sleeps the fixed 60-second cooldown (independent of the
adaptive backoff state, over which the statement is universally
quantified), increments the consecutive-error counter by one, and loops
again with the cursor unchanged; a response that validates resets the
counter to zero before the page is processed. -/
theorem c5_theorem (streaming has_handler : Bool) (max_pages : Option Nat)
    (transform : JValue → Nat → JValue) (s : PipeState) (rest : List Outcome)
    (status_code : Nat) (retry_after : Option String) (t_req_ms : ℚ)
    (body : Option JValue) (hp : s.pending = none) :
    (s.script = Outcome.resp status_code retry_after t_req_ms body :: rest →
      is_rate_limited status_code retry_after = true →
      s.consecutive_errors + 1 < 5 →
      run_loop streaming has_handler max_pages transform s =
        with_events [.fetch s.after false, .rateLimitSleep rate_limit_cooldown_sec]
          (run_loop streaming has_handler max_pages transform
            { s with script := rest, pending := none,
                     consecutive_errors := s.consecutive_errors + 1 })) ∧
    (∀ data, s.script = Outcome.resp status_code retry_after t_req_ms (some data) :: rest →
      is_rate_limited status_code retry_after = false →
      is_success_status status_code = true →
      validate_graphql_response data = true →
      run_loop streaming has_handler max_pages transform s =
        resume_step streaming has_handler max_pages transform
          (prepend_step (.fetch s.after false)
            (handle_validated streaming has_handler max_pages transform data t_req_ms
              { s with script := rest, pending := none, consecutive_errors := 0 }))) := by
  constructor
  · intro hs hrl hcap
    have hc : ¬ 5 ≤ s.consecutive_errors + 1 := by omega
    rw [run_loop_eq]
    simp only [pipe_step, hp, hs]
    simp [handle_outcome, hrl, hc, prepend_step, resume_step, with_events]
  · intro data hs hrl hss hval
    rw [run_loop_eq]
    simp only [pipe_step, hp, hs]
    simp [handle_outcome, hrl, hss, hval, prepend_step, resume_step]

/-- C5 witness: the amended theorem applied to a direct 429 response with
a zero error counter. -/
theorem c5_witness :
    (init_pipe_state false none defaultConfig [.resp 429 none 50 none]).pending = none ∧
    (init_pipe_state false none defaultConfig [.resp 429 none 50 none]).script = Outcome.resp 429 none 50 none :: [] ∧
    is_rate_limited 429 none = true ∧
    (init_pipe_state false none defaultConfig [.resp 429 none 50 none]).consecutive_errors + 1 < 5 ∧
    run_loop false false none id_transform (init_pipe_state false none defaultConfig [.resp 429 none 50 none]) =
      with_events [.fetch JValue.null false, .rateLimitSleep rate_limit_cooldown_sec]
        (run_loop false false none id_transform
          { init_pipe_state false none defaultConfig [.resp 429 none 50 none] with
              script := [], pending := none, consecutive_errors := 1 }) :=
  ⟨rfl, rfl, rfl, by decide,
   (c5_theorem false false none id_transform _ [] 429 none 50 none rfl).1 rfl rfl (by decide)⟩

/-- C6 counterexample: save_file_ops writes the state file in place
(truncate, then write); crashing after the truncation leaves an empty
file that is neither the old nor the new state, so a crash mid-write is
not atomic. -/
theorem c6_counterexample :
    disk_after_crash "old" (save_file_ops "new") 1 = "" ∧
    "" ≠ "old" ∧ "" ≠ "new" :=
  ⟨rfl, by decide, by decide⟩

/-- C6 (amended): ProgressManager.save overwrites the state file in place
with an open-truncate-then-write sequence - there is no
write-to-temp-then-rename step - so a crash before the save completes can
leave an empty (neither-old-nor-new) state file; completing all
operations yields exactly the new state and crashing before any leaves
the old one.  A failed persist is caught by the save's try/except and
becomes a logged warning instead of an exception, so it does not abort
the crawl. -/
theorem c6_theorem :
    (∀ old content, disk_after_crash old (save_file_ops content) 0 = old ∧
      disk_after_crash old (save_file_ops content) 1 = "" ∧
      disk_after_crash old (save_file_ops content) 2 = content) ∧
    (∀ (persist_ok : Bool) (cursor : JValue) (page_no : Nat) (records : List JValue),
      (persist_ok = false →
        save_body persist_ok cursor page_no records = .error "Failed to save progress" ∧
        progress_save persist_ok cursor page_no records = .warnedFailure) ∧
      (persist_ok = true →
        progress_save persist_ok cursor page_no records = .wrote (mkCkptRecord cursor page_no records))) := by
  constructor
  · intro old content
    refine ⟨rfl, rfl, ?_⟩
    simp [disk_after_crash, save_file_ops, apply_file_op]
  · intro persist_ok cursor page_no records
    constructor
    · intro h
      subst h
      exact ⟨rfl, rfl⟩
    · intro h
      subst h
      rfl

/-- C6 witness: the amended theorem applied to concrete old and new
contents and a failing persist. -/
theorem c6_witness :
    (disk_after_crash "a" (save_file_ops "b") 0 = "a" ∧
      disk_after_crash "a" (save_file_ops "b") 1 = "" ∧
      disk_after_crash "a" (save_file_ops "b") 2 = "b") ∧
    (save_body false JValue.null 3 [] = .error "Failed to save progress" ∧
      progress_save false JValue.null 3 [] = .warnedFailure) :=
  ⟨c6_theorem.1 "a" "b", (c6_theorem.2 false JValue.null 3 []).1 rfl⟩

/-- C7: with resume enabled and a saved checkpoint (cursor C, page_no P),
the pipeline's first page request carries cursor C and the first page it
processes (if any) is labelled P+1; with resume disabled, or enabled but
with no checkpoint on disk, the run starts from the empty cursor and page
0, so the first processed page is labelled 1. -/
theorem c7_theorem (streaming has_handler : Bool) (max_pages : Option Nat)
    (cfg : CrawlerConfig) (transform : JValue → Nat → JValue)
    (C : JValue) (P : Nat) (o : Outcome) (rest : List Outcome)
    (saved : Option SavedState) :
    ((run_crawl_pipeline streaming has_handler max_pages true (some ⟨C, P⟩) cfg transform (o :: rest)).trace.head? =
      some (.fetch C false)) ∧
    (first_processed (run_crawl_pipeline streaming has_handler max_pages true (some ⟨C, P⟩) cfg transform (o :: rest)).trace = none ∨
     first_processed (run_crawl_pipeline streaming has_handler max_pages true (some ⟨C, P⟩) cfg transform (o :: rest)).trace = some (P + 1)) ∧
    ((run_crawl_pipeline streaming has_handler max_pages false saved cfg transform (o :: rest)).trace.head? =
      some (.fetch .null false)) ∧
    (first_processed (run_crawl_pipeline streaming has_handler max_pages false saved cfg transform (o :: rest)).trace = none ∨
     first_processed (run_crawl_pipeline streaming has_handler max_pages false saved cfg transform (o :: rest)).trace = some 1) ∧
    ((run_crawl_pipeline streaming has_handler max_pages true none cfg transform (o :: rest)).trace.head? =
      some (.fetch .null false)) := by
  refine ⟨?_, ?_, ?_, ?_, ?_⟩
  · exact run_loop_first_fetch streaming has_handler max_pages transform _ o rest rfl rfl
  · exact run_loop_first_processed streaming has_handler max_pages transform _
  · cases saved with
    | none => exact run_loop_first_fetch streaming has_handler max_pages transform _ o rest rfl rfl
    | some st => exact run_loop_first_fetch streaming has_handler max_pages transform _ o rest rfl rfl
  · cases saved with
    | none => exact run_loop_first_processed streaming has_handler max_pages transform _
    | some st => exact run_loop_first_processed streaming has_handler max_pages transform _
  · exact run_loop_first_fetch streaming has_handler max_pages transform _ o rest rfl rfl

/-- C8: from a fresh sink with buffer threshold B (at least 1), a
sequence of add_record calls with succeeding flushes keeps exactly
record_count mod B records buffered and the rest written and fsynced -
the sink flushes exactly when the buffer reaches B; a flush of a
non-empty buffer on an open file moves every buffered record, in order,
to the durable file and empties the buffer; a failing flush leaves the
buffer untouched (and the count intact) and surfaces the error to the
caller. -/
theorem c8_theorem (B : Nat) (hB : 1 ≤ B) (records : List JValue) :
    ((add_all (mkSink B) records).record_count = records.length ∧
     (add_all (mkSink B) records).buffer.length = records.length % B ∧
     (add_all (mkSink B) records).written.length = records.length - records.length % B ∧
     (add_all (mkSink B) records).synced_len = (add_all (mkSink B) records).written.length ∧
     (add_all (mkSink B) records).buffer.length < B) ∧
    (∀ st st2 : SinkState, st.file_open = true → st.buffer ≠ [] →
      sink_flush none st = .ok st2 →
      st2.buffer = [] ∧ st2.written = st.written ++ st.buffer ∧
      st2.synced_len = st2.written.length) ∧
    (∀ (st st2 : SinkState) (j : Nat), sink_flush (some j) st = .err st2 →
      st2.buffer = st.buffer ∧ st2.synced_len = st.synced_len ∧
      st2.record_count = st.record_count) := by
  refine ⟨?_, ?_, ?_⟩
  · have inv0 : sink_inv B (mkSink B) := by
      refine ⟨rfl, by simpa [mkSink] using hB, by simp [mkSink], by simp [mkSink], ?_⟩
      simp [mkSink]
    obtain ⟨⟨i1, i2, i3, i4, i5⟩, hcount⟩ := add_all_inv B hB records (mkSink B) inv0
    have hcount' : (add_all (mkSink B) records).record_count = records.length := by
      simpa [mkSink] using hcount
    obtain ⟨k, hk⟩ := i5
    have hmod : records.length % B = (add_all (mkSink B) records).buffer.length := by
      rw [← hcount', i3, hk, Nat.mul_add_mod]
      exact Nat.mod_eq_of_lt i2
    refine ⟨hcount', hmod.symm, ?_, i4, i2⟩
    omega
  · intro st st2 ho hne h
    unfold sink_flush at h
    rw [if_neg (by simp [ho, hne])] at h
    simp only [SinkRes.ok.injEq] at h
    subst h
    simp
  · intro st st2 j h
    unfold sink_flush at h
    split_ifs at h with hc
    all_goals dsimp only at h
    all_goals first
      | (simp only [SinkRes.err.injEq] at h; subst h; simp)
      | exact absurd h (by simp)

/-- C8 witness: the theorem applied to a threshold of 2 and three
records. -/
theorem c8_witness :
    1 ≤ 2 ∧
    ((add_all (mkSink 2) [JValue.null, JValue.null, JValue.null]).record_count = 3 ∧
     (add_all (mkSink 2) [JValue.null, JValue.null, JValue.null]).buffer.length = 3 % 2 ∧
     (add_all (mkSink 2) [JValue.null, JValue.null, JValue.null]).written.length = 3 - 3 % 2) :=
  ⟨by decide,
   ⟨((c8_theorem 2 (by decide) [JValue.null, JValue.null, JValue.null]).1).1,
    ((c8_theorem 2 (by decide) [JValue.null, JValue.null, JValue.null]).1).2.1,
    ((c8_theorem 2 (by decide) [JValue.null, JValue.null, JValue.null]).1).2.2.1⟩⟩

/-- C9: if the bounded-parallel transform attempt raises - whether a
pool-level failure or any individual item's transform - the orchestrator
re-maps the entire page sequentially with the same transform, and
whenever the page stage yields records at all, the record count equals
the item count, so no item is silently dropped. -/
theorem c9_theorem (pool_ok : Bool) (transform : JValue → Except PyErr JValue)
    (nodes : List JValue) :
    (∀ records, transform_page pool_ok transform nodes = .ok records →
      records.length = nodes.length) ∧
    (∀ e, transform_batch_parallel pool_ok transform nodes = .error e →
      transform_page pool_ok transform nodes = mapE transform nodes) := by
  constructor
  · intro records h
    unfold transform_page at h
    split at h
    · rename_i rs hrs
      unfold transform_batch_parallel at hrs
      split at hrs
      · simp only [Except.ok.injEq] at h
        subst h
        exact mapE_length _ _ _ hrs
      · exact absurd hrs (by simp)
    · exact mapE_length _ _ _ h
  · intro e he
    unfold transform_page
    rw [he]

/-- C9 witness: the theorem applied to a failing pool and an identity
transform on one item. -/
theorem c9_witness :
    transform_page false (fun v => Except.ok v) [JValue.null] = .ok [JValue.null] ∧
    ([JValue.null] : List JValue).length = ([JValue.null] : List JValue).length ∧
    transform_batch_parallel false (fun v => Except.ok v) [JValue.null] = .error PyErr.typeError ∧
    transform_page false (fun v => Except.ok v) [JValue.null] = mapE (fun v => Except.ok v) [JValue.null] :=
  ⟨rfl, (c9_theorem false (fun v => Except.ok v) [JValue.null]).1 [JValue.null] rfl, rfl,
   (c9_theorem false (fun v => Except.ok v) [JValue.null]).2 PyErr.typeError rfl⟩

/-- C10: in streaming mode, every periodic (page-cadence) checkpoint the
pipeline writes carries records_count = 0 and sample_record = null,
whatever the scripted pages, configuration, resume state, and transform -
the save call passes an empty records list whenever streaming is on. -/
theorem c10_theorem (has_handler : Bool) (max_pages : Option Nat)
    (resume : Bool) (saved : Option SavedState) (cfg : CrawlerConfig)
    (transform : JValue → Nat → JValue) (script : List Outcome) :
    (run_crawl_pipeline true has_handler max_pages resume saved cfg transform script).trace.all periodic_save_zeroed = true :=
  run_loop_zeroed has_handler max_pages transform _
